import Mathlib

/-!
Shallow embedding of the finance-tracker canister (`src/index.ts`, Azle/TypeScript).

Modelling conventions:
* TypeScript `number` (IEEE double) is modelled as `ℚ` with exact arithmetic.
* `nat64` timestamps are modelled as `Nat`.
* Azle `Opt<T>` is, at runtime, the Candid variant object `{Some: v}` or
  `{None: null}`; we model its payload as `Option T`, and we model the
  JavaScript truthiness/null tests on such a value explicitly (both variants
  are plain objects, hence truthy and not `null`).
* `StableBTreeMap<string, FinancialRecord>` is modelled as an association list
  `List (String × FinancialRecord)`; `insert` overwrites the binding with the
  given key when present and appends otherwise, `values` is the snapshot of
  bound records.
* Azle `Result<T, string>` is `Except String T`, with the error strings taken
  verbatim from the source.
* The host clock `ic.time()` and the uuid generator are external collaborators;
  operations that read them take the produced value as an explicit argument.
-/

namespace FinanceTracker

/-- The stored entity (`FinancialRecord` in `src/index.ts`). -/
structure FinancialRecord where
  id : String
  amount : ℚ
  category : String
  notes : Option String
  createdAt : Nat
  updatedAt : Option Nat
deriving DecidableEq, Repr

/-- The create/update payload (`FinancialRecordPayload` in `src/index.ts`). -/
structure FinancialRecordPayload where
  amount : ℚ
  category : String
  notes : Option String
deriving DecidableEq, Repr

/-- The canister storage: `financialRecordStorage`, a map from string id to record. -/
abbrev Store := List (String × FinancialRecord)

/-- `financialRecordStorage.get(k)`. -/
def storageGet (s : Store) (k : String) : Option FinancialRecord :=
  (s.find? (fun p => p.1 == k)).map Prod.snd

/-- `financialRecordStorage.insert(k, v)`: overwrite the binding with key `k`
when one exists, append otherwise. -/
def storageInsert (s : Store) (k : String) (v : FinancialRecord) : Store :=
  if s.any (fun p => p.1 == k) then
    s.map (fun p => if p.1 == k then (k, v) else p)
  else
    s ++ [(k, v)]

/-- `financialRecordStorage.remove(k)`: drop the binding with key `k`. -/
def storageRemove (s : Store) (k : String) : Store :=
  s.filter (fun p => ¬ p.1 = k)

/-- `financialRecordStorage.values()`: the snapshot of stored records. -/
def storageValues (s : Store) : List FinancialRecord :=
  s.map Prod.snd

/-- JavaScript truthiness of an Azle `Opt` value: both `{Some: v}` and
`{None: null}` are plain objects, hence truthy. -/
def jsOptTruthy {α : Type} (_ : Option α) : Bool := true

/-- JavaScript `=== null` on an Azle `Opt` value: both `{Some: v}` and
`{None: null}` are objects, never the `null` value itself. -/
def jsOptIsNull {α : Type} (_ : Option α) : Bool := false

/-- `Math.abs` on a (modelled) JavaScript number. -/
def jsAbs (q : ℚ) : ℚ := if q < 0 then -q else q

/-- `getFinancialRecords()` (`src/index.ts:23-33`). -/
def getFinancialRecords (s : Store) : Except String (List FinancialRecord) :=
  let records := storageValues s
  if records.length = 0 then
    .error "No financial records found."
  else
    .ok records

/-- `getFinancialRecord(id)` (`src/index.ts:36-46`): `!id` rejects the empty
string before the lookup. -/
def getFinancialRecord (s : Store) (id : String) : Except String FinancialRecord :=
  if id = "" then
    .error "id is required"
  else
    match storageGet s id with
    | some record => .ok record
    | none => .error ("couldn't find a financial record with id=" ++ id)

/-- `addFinancialRecord(payload)` (`src/index.ts:49-58`); `newId` is the
uuid produced by `uuidv4()` and `now` the value of `ic.time()`.  `!payload.amount`
is zero-amount falsiness, `!payload.category` empty-string falsiness.
Returns the operation result together with the post-state of the storage. -/
def addFinancialRecord (s : Store) (newId : String) (now : Nat)
    (payload : FinancialRecordPayload) : Except String FinancialRecord × Store :=
  if payload.amount = 0 ∨ payload.category = "" then
    (.error "amount and category are required", s)
  else
    let record : FinancialRecord :=
      { id := newId, createdAt := now, updatedAt := none,
        amount := payload.amount, category := payload.category, notes := payload.notes }
    (.ok record, storageInsert s record.id record)

/-- `updateFinancialRecord(id, payload)` (`src/index.ts:61-75`); `now` is the
value of `ic.time()`.  The spread `{...record, ...payload, updatedAt: Opt.Some(ic.time())}`
keeps `id` and `createdAt` and overwrites `amount`, `category`, `notes`. -/
def updateFinancialRecord (s : Store) (now : Nat) (id : String)
    (payload : FinancialRecordPayload) : Except String FinancialRecord × Store :=
  if payload.amount = 0 ∨ payload.category = "" then
    (.error "amount and category are required", s)
  else
    match storageGet s id with
    | some record =>
        let updatedRecord : FinancialRecord :=
          { id := record.id, createdAt := record.createdAt, updatedAt := some now,
            amount := payload.amount, category := payload.category, notes := payload.notes }
        (.ok updatedRecord, storageInsert s record.id updatedRecord)
    | none =>
        (.error ("couldn't update a financial record with id=" ++ id ++ ". record not found"), s)

/-- `updateExpenseCategory(oldCategory, newCategory)` (`src/index.ts:78-97`):
each matched record has its `category` field set and is written back under its id. -/
def updateExpenseCategory (s : Store) (oldCategory newCategory : String) :
    Except String (List FinancialRecord) × Store :=
  if oldCategory = "" ∨ newCategory = "" then
    (.error "oldCategory and newCategory are required.", s)
  else
    let records := (storageValues s).filter (fun record => record.category == oldCategory)
    if records.length = 0 then
      (.error ("No financial records found for category: " ++ oldCategory ++ "."), s)
    else
      let renamed := records.map (fun record => { record with category := newCategory })
      (.ok renamed, renamed.foldl (fun acc record => storageInsert acc record.id record) s)

/-- `deleteFinancialRecord(id)` (`src/index.ts:100-110`). -/
def deleteFinancialRecord (s : Store) (id : String) : Except String FinancialRecord × Store :=
  if id = "" then
    (.error "id is required", s)
  else
    match storageGet s id with
    | some deletedRecord => (.ok deletedRecord, storageRemove s id)
    | none =>
        (.error ("couldn't delete a financial record with id=" ++ id ++ ". record not found."), s)

/-- `getFinancialRecordsByCategory(category)` (`src/index.ts:113-127`). -/
def getFinancialRecordsByCategory (s : Store) (category : String) :
    Except String (List FinancialRecord) :=
  if category = "" then
    .error "Category is required."
  else
    let filteredRecords := (storageValues s).filter (fun record => record.category == category)
    if filteredRecords.length = 0 then
      .error ("No financial records found for category: " ++ category ++ ".")
    else
      .ok filteredRecords

/-- `getFinancialRecordsByDateRange(startDate, endDate)` (`src/index.ts:131-149`):
`!startDate || !endDate` is bigint-zero falsiness, checked before the order test. -/
def getFinancialRecordsByDateRange (s : Store) (startDate endDate : Nat) :
    Except String (List FinancialRecord) :=
  if startDate = 0 ∨ endDate = 0 then
    .error "startDate and endDate are required."
  else if startDate > endDate then
    .error "startDate must not be later than endDate."
  else
    let filteredRecords := (storageValues s).filter
      (fun record => startDate ≤ record.createdAt ∧ record.createdAt ≤ endDate)
    if filteredRecords.length = 0 then
      .error "No financial records found within the specified date range."
    else
      .ok filteredRecords

/-- The inline summary record returned by `getFinancialSummary`. -/
structure FinancialSummary where
  totalIncome : ℚ
  totalExpense : ℚ
  netFlow : ℚ
deriving DecidableEq, Repr

/-- `getFinancialSummary()` (`src/index.ts:153-175`): a single pass adds
positive amounts to `totalIncome` and all other amounts to `totalExpense`. -/
def getFinancialSummary (s : Store) : Except String FinancialSummary :=
  let totals := (storageValues s).foldl
    (fun (acc : ℚ × ℚ) record =>
      if record.amount > 0 then (acc.1 + record.amount, acc.2)
      else (acc.1, acc.2 + record.amount))
    (0, 0)
  if totals.1 = 0 ∧ totals.2 = 0 then
    .error "No financial records available to summarize."
  else
    .ok { totalIncome := totals.1, totalExpense := totals.2, netFlow := totals.1 + totals.2 }

/-- `getExpensesGreaterThan(amount)` (`src/index.ts:179-193`): `!amount || amount <= 0`
collapses to `amount ≤ 0` over exact numbers. -/
def getExpensesGreaterThan (s : Store) (amount : ℚ) : Except String (List FinancialRecord) :=
  if amount ≤ 0 then
    .error "Amount must be a positive number."
  else
    let filteredRecords := (storageValues s).filter
      (fun record => record.amount < 0 ∧ jsAbs record.amount > amount)
    if filteredRecords.length = 0 then
      .error "No expenses found greater than the specified amount."
    else
      .ok filteredRecords

/-- `getIncomesLessThan(amount)` (`src/index.ts:197-211`). -/
def getIncomesLessThan (s : Store) (amount : ℚ) : Except String (List FinancialRecord) :=
  if amount ≤ 0 then
    .error "Amount must be a positive number."
  else
    let filteredRecords := (storageValues s).filter
      (fun record => record.amount > 0 ∧ record.amount < amount)
    if filteredRecords.length = 0 then
      .error "No incomes found less than the specified amount."
    else
      .ok filteredRecords

/-! ### JavaScript `Date` calendar arithmetic

`getAverageMonthlyExpenses` / `getAverageMonthlyIncome` build
`new Date(Number(record.createdAt))` and read `getFullYear()` / `getMonth()`.
ECMAScript interprets the argument as milliseconds since the Unix epoch; we
model the (UTC) proleptic-Gregorian year and zero-based month of that instant
with the standard civil-from-days computation. -/

/-- ECMAScript `Day(t)`: the day number containing the millisecond instant
`ms`, i.e. `floor(ms / 86400000)`. -/
def jsDayFromMs (ms : Int) : Int := Int.fdiv ms 86400000

/-- Gregorian `(year, month 1..12, day 1..31)` of a day count from 1970-01-01. -/
def civilFromDays (z0 : Int) : Int × Int × Int :=
  let z := z0 + 719468
  let era := Int.fdiv z 146097
  let doe := z - era * 146097
  let yoe := Int.fdiv (doe - Int.fdiv doe 1460 + Int.fdiv doe 36524 - Int.fdiv doe 146096) 365
  let y := yoe + era * 400
  let doy := doe - (365 * yoe + Int.fdiv yoe 4 - Int.fdiv yoe 100)
  let mp := Int.fdiv (5 * doy + 2) 153
  let d := doy - Int.fdiv (153 * mp + 2) 5 + 1
  let m := mp + (if mp < 10 then 3 else -9)
  (if m ≤ 2 then y + 1 else y, m, d)

/-- `new Date(ms).getFullYear()` (UTC). -/
def jsGetFullYear (ms : Nat) : Int := (civilFromDays (jsDayFromMs ms)).1

/-- `new Date(ms).getMonth()` (UTC): zero-based month. -/
def jsGetMonth (ms : Nat) : Int := (civilFromDays (jsDayFromMs ms)).2.1 - 1

/-- `Math.min(...)` over a spread of the listed values (`0` only for the
empty spread, which the callers rule out). -/
def jsMinList : List Nat → Nat
  | [] => 0
  | x :: xs => xs.foldl min x

/-- `Math.max(...)` over a spread of the listed values. -/
def jsMaxList : List Nat → Nat
  | [] => 0
  | x :: xs => xs.foldl max x

/-- The month-span expression of `src/index.ts:227`:
`(latest.getFullYear() - earliest.getFullYear()) * 12 + (latest.getMonth() - earliest.getMonth() + 1)`. -/
def monthDiffOf (earliest latest : Nat) : Int :=
  (jsGetFullYear latest - jsGetFullYear earliest) * 12
    + (jsGetMonth latest - jsGetMonth earliest + 1)

/-- `getAverageMonthlyExpenses()` (`src/index.ts:215-233`). -/
def getAverageMonthlyExpenses (s : Store) : Except String ℚ :=
  let expenses := (storageValues s).filter (fun record => record.amount < 0)
  if expenses.length = 0 then
    .error "No expense records found."
  else
    let totalExpenses := (expenses.map (fun record => jsAbs record.amount)).sum
    let earliest := jsMinList (expenses.map (fun e => e.createdAt))
    let latest := jsMaxList (expenses.map (fun e => e.createdAt))
    let monthDiff := monthDiffOf earliest latest
    .ok (if monthDiff > 0 then totalExpenses / (monthDiff : ℚ) else totalExpenses)

/-- `getAverageMonthlyIncome()` (`src/index.ts:236-255`). -/
def getAverageMonthlyIncome (s : Store) : Except String ℚ :=
  let incomes := (storageValues s).filter (fun record => record.amount > 0)
  if incomes.length = 0 then
    .error "No income records found."
  else
    let totalIncome := (incomes.map (fun record => record.amount)).sum
    let earliest := jsMinList (incomes.map (fun e => e.createdAt))
    let latest := jsMaxList (incomes.map (fun e => e.createdAt))
    let monthDiff := monthDiffOf earliest latest
    .ok (if monthDiff > 0 then totalIncome / (monthDiff : ℚ) else totalIncome)

/-- `getFinancialRecordsWithNotes()` (`src/index.ts:258-268`): the filter is the
JavaScript expression `record.notes && record.notes !== null` evaluated on the
Azle `Opt` variant object. -/
def getFinancialRecordsWithNotes (s : Store) : Except String (List FinancialRecord) :=
  let filteredRecords := (storageValues s).filter
    (fun record => jsOptTruthy record.notes && !jsOptIsNull record.notes)
  if filteredRecords.length = 0 then
    .error "No financial records with notes found."
  else
    .ok filteredRecords

/-- `getFinancialRecordsWithoutNotes()` (`src/index.ts:272-281`): the filter is
`!record.notes || record.notes === null` on the Azle `Opt` variant object. -/
def getFinancialRecordsWithoutNotes (s : Store) : Except String (List FinancialRecord) :=
  let filteredRecords := (storageValues s).filter
    (fun record => !jsOptTruthy record.notes || jsOptIsNull record.notes)
  if filteredRecords.length = 0 then
    .error "No financial records without notes found."
  else
    .ok filteredRecords

/-! ### JSON export

`exportFinancialData` runs `JSON.stringify(data, replacer)` where the replacer
maps every bigint to its decimal string.  On this data shape that yields an
array of flat objects; we model the rendered text directly.  The key order is
the construction order of the record objects; the exact JavaScript
serialization of a floating-point `amount` is abstracted by `renderNum`. -/

/-- JSON string-character escaping (quote and backslash; other characters of
the stored strings are kept as they are). -/
def jsEscapeChar (c : Char) : String :=
  if c = '"' then "\\\"" else if c = '\\' then "\\\\" else String.singleton c

/-- The body of a JSON string literal. -/
def jsEscape (s : String) : String :=
  String.join (s.data.map jsEscapeChar)

/-- A JSON string literal. -/
def jsonStr (s : String) : String := "\x22" ++ jsEscape s ++ "\x22"

/-- A JSON number literal for the modelled `amount`; the precise
ECMAScript double-to-string format is not claim-relevant and is abstracted
by the exact rational representation. -/
def renderNum (q : ℚ) : String := toString q

/-- Serialization of an `Opt<nat64>` field under the bigint replacer:
`{Some: t}` keeps its key and the bigint becomes a decimal string. -/
def renderOptNat : Option Nat → String
  | some t => "\x7b\x22Some\x22:" ++ jsonStr (Nat.repr t) ++ "\x7d"
  | none => "\x7b\x22None\x22:null\x7d"

/-- Serialization of an `Opt<string>` field. -/
def renderOptStr : Option String → String
  | some v => "\x7b\x22Some\x22:" ++ jsonStr v ++ "\x7d"
  | none => "\x7b\x22None\x22:null\x7d"

/-- `JSON.stringify` of one record under the bigint replacer: the `createdAt`
bigint (and the `updatedAt` payload when present) is rendered as a decimal
string literal, not as a bare numeric literal. -/
def renderRecord (r : FinancialRecord) : String :=
  "\x7b\x22id\x22:" ++ jsonStr r.id
    ++ ",\x22createdAt\x22:" ++ jsonStr (Nat.repr r.createdAt)
    ++ ",\x22updatedAt\x22:" ++ renderOptNat r.updatedAt
    ++ ",\x22amount\x22:" ++ renderNum r.amount
    ++ ",\x22category\x22:" ++ jsonStr r.category
    ++ ",\x22notes\x22:" ++ renderOptStr r.notes
    ++ "\x7d"

/-- `JSON.stringify` of the exported record array. -/
def renderData (records : List FinancialRecord) : String :=
  "[" ++ String.intercalate "," (records.map renderRecord) ++ "]"

/-- `format.toLowerCase()` (ASCII case folding suffices for the model). -/
def jsToLower (s : String) : String := String.mk (s.data.map Char.toLower)

/-- `exportFinancialData(format)` (`src/index.ts:284-323`). -/
def exportFinancialData (s : Store) (format : String) : Except String String :=
  if format = "" then
    .error "Format is required."
  else if jsToLower format ≠ "json" then
    .error "Unsupported format. Currently, only JSON export is available."
  else
    let data := storageValues s
    if data.length = 0 then
      .error "No financial data available to export."
    else
      .ok (renderData data)

/-- `forecastFutureExpenses(monthsAhead)` (`src/index.ts:326-352`). -/
def forecastFutureExpenses (s : Store) (monthsAhead : ℚ) : Except String ℚ :=
  if monthsAhead = 0 then
    .error "Invalid input: monthsAhead is required and must be a number."
  else if monthsAhead ≤ 0 then
    .error "Invalid input: monthsAhead must be greater than 0."
  else
    let expenses := (storageValues s).filter (fun record => record.amount < 0)
    if expenses.length = 0 then
      .error "Insufficient data: No expense records found."
    else
      let totalExpenses := (expenses.map (fun record => jsAbs record.amount)).sum
      let monthlyAverage := totalExpenses / (expenses.length : ℚ)
      .ok (monthlyAverage * monthsAhead)

/-! ### Spec-side vocabulary and error taxonomy -/

/-- Spec side: the sum of all positive amounts of a record list
(`totalIncome` of the spec's Summary). -/
def posTotal (l : List FinancialRecord) : ℚ :=
  ((l.filter (fun r => r.amount > 0)).map (fun r => r.amount)).sum

/-- Spec side: the sum of all negative amounts of a record list, kept negative
(`totalExpense` of the spec's Summary). -/
def negTotal (l : List FinancialRecord) : ℚ :=
  ((l.filter (fun r => r.amount < 0)).map (fun r => r.amount)).sum

/-- Code side: the sum the summary loop accumulates in its else-branch
(all amounts that are not positive). -/
def nonposTotal (l : List FinancialRecord) : ℚ :=
  ((l.filter (fun r => ¬ r.amount > 0)).map (fun r => r.amount)).sum

/-- The spec's `ValidationError` class: the error strings the source returns
for malformed or missing input (spec section 7 groups exactly these messages). -/
def validationMessages : List String :=
  ["id is required",
   "amount and category are required",
   "oldCategory and newCategory are required.",
   "Category is required.",
   "startDate and endDate are required.",
   "startDate must not be later than endDate.",
   "Amount must be a positive number.",
   "Format is required.",
   "Unsupported format. Currently, only JSON export is available.",
   "Invalid input: monthsAhead is required and must be a number.",
   "Invalid input: monthsAhead must be greater than 0."]

/-- `record.category = newCategory` on a copy of the record: the per-record
step of `updateExpenseCategory`. -/
def renameIn (newCategory : String) (r : FinancialRecord) : FinancialRecord :=
  { r with category := newCategory }

/-- The store states reachable through the mutation operations, starting from
the empty map (the uuid and clock values are arbitrary). -/
inductive Reachable : Store → Prop where
  | empty : Reachable []
  | add (s : Store) (newId : String) (now : Nat) (payload : FinancialRecordPayload) :
      Reachable s → Reachable (addFinancialRecord s newId now payload).2
  | update (s : Store) (now : Nat) (id : String) (payload : FinancialRecordPayload) :
      Reachable s → Reachable (updateFinancialRecord s now id payload).2
  | rename (s : Store) (oldCategory newCategory : String) :
      Reachable s → Reachable (updateExpenseCategory s oldCategory newCategory).2
  | del (s : Store) (id : String) :
      Reachable s → Reachable (deleteFinancialRecord s id).2

/-! ### Concrete inputs for scenarios, counterexamples and witnesses -/

/-- An expense of 100 created on 2024-01-15 (milliseconds of the Unix epoch,
the unit `new Date(Number(createdAt))` reads). -/
def janExpense : FinancialRecord :=
  { id := "e1", amount := -100, category := "food", notes := none,
    createdAt := 1705276800000, updatedAt := none }

/-- An expense of 200 created on 2024-03-10. -/
def marExpense : FinancialRecord :=
  { id := "e2", amount := -200, category := "rent", notes := none,
    createdAt := 1710028800000, updatedAt := none }

/-- The store of the spec's average-monthly-expenses scenario. -/
def demoExpenseStore : Store := [("e1", janExpense), ("e2", marExpense)]

/-- A record whose optional notes field is absent. -/
def noteLessRecord : FinancialRecord :=
  { id := "r1", amount := 25, category := "misc", notes := none,
    createdAt := 1111, updatedAt := none }

/-- A one-record store whose single record has no notes. -/
def noteLessStore : Store := [("r1", noteLessRecord)]

/-- A record in category `food`, used for the self-rename counterexample. -/
def foodRecord : FinancialRecord :=
  { id := "a", amount := -5, category := "food", notes := none,
    createdAt := 10, updatedAt := none }

/-- A one-record store holding `foodRecord`. -/
def foodStore : Store := [("a", foodRecord)]

/-- A second record in category `food`. -/
def foodRecordB : FinancialRecord :=
  { id := "b", amount := -7, category := "food", notes := some "lunch",
    createdAt := 12, updatedAt := none }

/-- A two-record store with both records in category `food`. -/
def foodStore2 : Store := [("a", foodRecord), ("b", foodRecordB)]

/-- A valid update payload. -/
def demoPayload : FinancialRecordPayload :=
  { amount := 42, category := "travel", notes := some "train" }

/-- A one-step reachable store: the post-state of one valid create on the
empty store. -/
def reachedStore : Store := (addFinancialRecord [] "u1" 7 demoPayload).2

/-- The record the one valid create inserts. -/
def reachedRecord : FinancialRecord :=
  { id := "u1", amount := 42, category := "travel", notes := some "train",
    createdAt := 7, updatedAt := none }

/-- An income record of 5. -/
def payRecord : FinancialRecord :=
  { id := "p", amount := 5, category := "pay", notes := none,
    createdAt := 4, updatedAt := none }

/-- A store with one expense of 5 and one income of 5. -/
def demoSummaryStore : Store := [("a", foodRecord), ("p", payRecord)]

/-! ### Helper lemmas -/

theorem jsAbs_eq_abs (q : ℚ) : jsAbs q = |q| := by
  unfold jsAbs
  rcases lt_or_le q 0 with h | h
  · rw [if_pos h, abs_of_neg h]
  · rw [if_neg (not_lt.mpr h), abs_of_nonneg h]

theorem storageGet_eq_none (s : Store) (k : String) (h : ∀ p ∈ s, p.1 ≠ k) :
    storageGet s k = none := by
  unfold storageGet
  rw [List.find?_eq_none.mpr]
  · rfl
  · intro p hp
    simpa using h p hp

theorem storageGet_cons (p : String × FinancialRecord) (l : Store) (k : String) :
    storageGet (p :: l) k = if p.1 == k then some p.2 else storageGet l k := by
  unfold storageGet
  cases hpk : p.1 == k with
  | true => simp [List.find?, hpk]
  | false => simp [List.find?, hpk]

theorem storageGet_insert_self (s : Store) (k : String) (v : FinancialRecord) :
    storageGet (storageInsert s k v) k = some v := by
  induction s with
  | nil => simp [storageGet, storageInsert]
  | cons p rest ih =>
    unfold storageInsert at ih ⊢
    by_cases hp : (p.1 == k) = true
    · rw [if_pos (by simp [hp])]
      simp only [List.map_cons, if_pos hp]
      rw [storageGet_cons]
      simp
    · by_cases h2 : rest.any (fun q => q.1 == k) = true
      · rw [if_pos (by simp [hp, h2])]
        simp only [List.map_cons, if_neg hp]
        rw [storageGet_cons, if_neg hp]
        rw [if_pos h2] at ih
        exact ih
      · rw [if_neg (by simp [hp, h2])]
        rw [if_neg h2] at ih
        rw [List.cons_append, storageGet_cons, if_neg hp]
        exact ih

/-! ### C2 -/

/-- C2: the claim says `WithNotes()` / `WithoutNotes()` partition the store by
presence/absence of the optional notes field.  The code filters with
`record.notes && record.notes !== null` resp. `!record.notes || record.notes === null`,
but an Azle `Opt` value is the variant object `{Some: v}` or `{None: null}`,
which is truthy and not `null` in both variants; so on a store whose single
record has absent notes, `WithNotes` returns the record (the claim says it
must fail) and `WithoutNotes` fails with the no-match error (the claim says it
must return the record). -/
theorem notesPartition_bug_eval :
    getFinancialRecordsWithNotes noteLessStore = .ok [noteLessRecord] ∧
    getFinancialRecordsWithoutNotes noteLessStore =
      .error "No financial records without notes found." :=
  ⟨rfl, rfl⟩

/-! ### C7 -/

/-- C7: `ExpensesGreaterThan(amount)` fails with the validation error when the
threshold is missing (zero) or not positive; otherwise it keeps exactly the
records with negative amount and absolute value strictly above the threshold
(a record whose absolute value equals the threshold is excluded), failing with
the no-match error when none qualifies. -/
theorem getExpensesGreaterThan_spec (s : Store) (amount : ℚ) :
    (amount ≤ 0 → getExpensesGreaterThan s amount = .error "Amount must be a positive number.") ∧
    (0 < amount →
      (((storageValues s).filter
          (fun record => record.amount < 0 ∧ jsAbs record.amount > amount)) = [] →
        getExpensesGreaterThan s amount =
          .error "No expenses found greater than the specified amount.") ∧
      (((storageValues s).filter
          (fun record => record.amount < 0 ∧ jsAbs record.amount > amount)) ≠ [] →
        getExpensesGreaterThan s amount =
          .ok ((storageValues s).filter
            (fun record => record.amount < 0 ∧ jsAbs record.amount > amount))) ∧
      (∀ r ∈ (storageValues s).filter
          (fun record => record.amount < 0 ∧ jsAbs record.amount > amount),
        r.amount < 0 ∧ amount < |r.amount|) ∧
      (∀ r, |r.amount| = amount →
        r ∉ (storageValues s).filter
          (fun record => record.amount < 0 ∧ jsAbs record.amount > amount))) := by
  constructor
  · intro h
    unfold getExpensesGreaterThan
    rw [if_pos h]
  · intro hpos
    refine ⟨?_, ?_, ?_, ?_⟩
    · intro hnil
      unfold getExpensesGreaterThan
      rw [if_neg (not_le.mpr hpos), hnil]
      rfl
    · intro hne
      unfold getExpensesGreaterThan
      rw [if_neg (not_le.mpr hpos), if_neg (fun h => hne (List.length_eq_zero.mp h))]
    · intro r hr
      rw [List.mem_filter] at hr
      have h := of_decide_eq_true hr.2
      exact ⟨h.1, by simpa [jsAbs_eq_abs] using h.2⟩
    · intro r habs hr
      rw [List.mem_filter] at hr
      have h := of_decide_eq_true hr.2
      have := h.2
      rw [jsAbs_eq_abs, habs] at this
      exact lt_irrefl amount this

/-- C7 witness: the threshold 50 excludes the boundary expense of exactly 50
and keeps the expense of 100. -/
theorem getExpensesGreaterThan_spec_witness :
    getExpensesGreaterThan [("e1", janExpense), ("b50",
      { id := "b50", amount := -50, category := "x", notes := none,
        createdAt := 3, updatedAt := none })] 50 = .ok [janExpense] :=
  (((getExpensesGreaterThan_spec [("e1", janExpense), ("b50",
      { id := "b50", amount := -50, category := "x", notes := none,
        createdAt := 3, updatedAt := none })] 50).2 (by norm_num)).2.1 (by decide)).trans
    (by rfl)

/-! ### C10 -/

/-- C10: `Update` with the empty id and a valid payload is not rejected by an
id validation (unlike `GetById` and `Delete`, which both reject the empty id
before touching the store): it reaches the lookup, fails with the
record-not-found error because no stored key is the empty string, and leaves
the store unchanged. -/
theorem updateFinancialRecord_emptyId_spec (s : Store) (now : Nat)
    (p : FinancialRecordPayload) (hamt : p.amount ≠ 0) (hcat : p.category ≠ "")
    (hids : ∀ q ∈ s, q.1 ≠ "") :
    updateFinancialRecord s now "" p =
      (.error "couldn't update a financial record with id=. record not found", s) ∧
    getFinancialRecord s "" = .error "id is required" ∧
    deleteFinancialRecord s "" = (.error "id is required", s) := by
  refine ⟨?_, ?_, ?_⟩
  · unfold updateFinancialRecord
    rw [if_neg (by tauto), storageGet_eq_none s "" hids]
    rfl
  · unfold getFinancialRecord
    rw [if_pos rfl]
  · unfold deleteFinancialRecord
    rw [if_pos rfl]

/-- C10 witness: on the one-record store with key `a`, the empty-id update is
a not-found failure while `GetById` and `Delete` reject the empty id. -/
theorem updateFinancialRecord_emptyId_spec_witness :
    updateFinancialRecord foodStore 99 "" demoPayload =
      (.error "couldn't update a financial record with id=. record not found", foodStore) ∧
    getFinancialRecord foodStore "" = .error "id is required" ∧
    deleteFinancialRecord foodStore "" = (.error "id is required", foodStore) :=
  updateFinancialRecord_emptyId_spec foodStore 99 demoPayload (by norm_num [demoPayload])
    (by decide) (by decide)

/-! ### C4 -/

theorem posTotal_cons (r : FinancialRecord) (rs : List FinancialRecord) :
    posTotal (r :: rs) = (if r.amount > 0 then r.amount else 0) + posTotal rs := by
  unfold posTotal
  by_cases h : r.amount > 0
  · simp [List.filter_cons, h]
  · simp [List.filter_cons, h]

theorem negTotal_cons (r : FinancialRecord) (rs : List FinancialRecord) :
    negTotal (r :: rs) = (if r.amount < 0 then r.amount else 0) + negTotal rs := by
  unfold negTotal
  by_cases h : r.amount < 0
  · simp [List.filter_cons, h]
  · simp [List.filter_cons, h]

theorem nonposTotal_cons (r : FinancialRecord) (rs : List FinancialRecord) :
    nonposTotal (r :: rs) = (if r.amount > 0 then 0 else r.amount) + nonposTotal rs := by
  unfold nonposTotal
  by_cases h : r.amount > 0
  · simp [List.filter_cons, h]
  · simp [List.filter_cons, h, not_lt.mp h]

theorem summary_foldl (l : List FinancialRecord) (a b : ℚ) :
    l.foldl
      (fun (acc : ℚ × ℚ) record =>
        if record.amount > 0 then (acc.1 + record.amount, acc.2)
        else (acc.1, acc.2 + record.amount)) (a, b)
      = (a + posTotal l, b + nonposTotal l) := by
  induction l generalizing a b with
  | nil => simp [posTotal, nonposTotal]
  | cons r rs ih =>
    rw [List.foldl_cons]
    by_cases h : r.amount > 0
    · rw [if_pos h, ih, posTotal_cons, nonposTotal_cons, if_pos h, if_pos h]
      simp only [Prod.mk.injEq]
      constructor <;> ring
    · rw [if_neg h, ih, posTotal_cons, nonposTotal_cons, if_neg h, if_neg h]
      simp only [Prod.mk.injEq]
      constructor <;> ring

theorem nonposTotal_eq_negTotal (l : List FinancialRecord) :
    nonposTotal l = negTotal l := by
  induction l with
  | nil => rfl
  | cons r rs ih =>
    rw [nonposTotal_cons, negTotal_cons, ih]
    rcases lt_trichotomy r.amount 0 with h | h | h
    · rw [if_neg (not_lt.mpr h.le), if_pos h]
    · rw [if_neg (by rw [h]; exact lt_irrefl 0), if_neg (by rw [h]; exact lt_irrefl 0), h]
    · rw [if_pos h, if_neg (not_lt.mpr h.le)]

theorem posTotal_nonneg (l : List FinancialRecord) : 0 ≤ posTotal l := by
  induction l with
  | nil => simp [posTotal]
  | cons r rs ih =>
    rw [posTotal_cons]
    by_cases h : r.amount > 0
    · rw [if_pos h]
      exact add_nonneg h.le ih
    · rw [if_neg h]
      simpa using ih

theorem negTotal_nonpos (l : List FinancialRecord) : negTotal l ≤ 0 := by
  induction l with
  | nil => simp [negTotal]
  | cons r rs ih =>
    rw [negTotal_cons]
    by_cases h : r.amount < 0
    · rw [if_pos h]
      exact add_nonpos h.le ih
    · rw [if_neg h]
      simpa using ih

/-- C4: `Summary()` fails exactly when the sum of the positive amounts and the
sum of the negative amounts are both zero; otherwise it returns
`{totalIncome, totalExpense, netFlow}` with `totalIncome` the sum of the
positive amounts, `totalExpense` the sum of the negative amounts kept
negative, `netFlow` their sum, and `totalIncome ≥ 0 ≥ totalExpense`. -/
theorem getFinancialSummary_spec (s : Store) :
    (getFinancialSummary s = .error "No financial records available to summarize."
      ↔ posTotal (storageValues s) = 0 ∧ negTotal (storageValues s) = 0) ∧
    (¬ (posTotal (storageValues s) = 0 ∧ negTotal (storageValues s) = 0) →
      getFinancialSummary s = .ok
        { totalIncome := posTotal (storageValues s),
          totalExpense := negTotal (storageValues s),
          netFlow := posTotal (storageValues s) + negTotal (storageValues s) } ∧
      0 ≤ posTotal (storageValues s) ∧ negTotal (storageValues s) ≤ 0) := by
  have hfold := summary_foldl (storageValues s) 0 0
  rw [zero_add, zero_add, nonposTotal_eq_negTotal] at hfold
  unfold getFinancialSummary
  rw [hfold]
  constructor
  · by_cases h : posTotal (storageValues s) = 0 ∧ negTotal (storageValues s) = 0
    · rw [if_pos h]
      simp [h]
    · rw [if_neg h]
      simp [h]
  · intro h
    rw [if_neg h]
    exact ⟨rfl, posTotal_nonneg (storageValues s), negTotal_nonpos (storageValues s)⟩

/-- C4 witness: a store with one income of 5 and one expense of 3 summarizes
to `{totalIncome := 5, totalExpense := -3, netFlow := 2}`. -/
theorem getFinancialSummary_spec_witness :
    getFinancialSummary demoSummaryStore =
      .ok { totalIncome := 5, totalExpense := -5, netFlow := 0 } := by
  have h := (getFinancialSummary_spec demoSummaryStore).2
    (by norm_num [posTotal, negTotal, demoSummaryStore, storageValues, foodRecord,
      payRecord, List.filter_cons])
  rw [h.1]
  norm_num [posTotal, negTotal, demoSummaryStore, storageValues, foodRecord,
    payRecord, List.filter_cons]

/-! ### C1 -/

theorem monthDiff_div_eq_max (T : ℚ) (md : ℤ) :
    (if md > 0 then T / (md : ℚ) else T) = T / ((max 1 md : ℤ) : ℚ) := by
  by_cases h : 0 < md
  · rw [if_pos h, max_eq_right (by omega : (1 : ℤ) ≤ md)]
  · rw [if_neg h, max_eq_left (by omega : md ≤ (1 : ℤ)), Int.cast_one, div_one]

/-- C1: when expense records exist, `AverageMonthlyExpenses()` is the sum of
the absolute values of the negative amounts divided by the inclusive month
span `(yearLatest - yearEarliest) * 12 + (monthLatest - monthEarliest) + 1`
of the earliest and latest expense `createdAt` (with minimum 1); on the store
with expenses of 100 on 2024-01-15 and 200 on 2024-03-10 that span is 3 and
the result is `300 / 3 = 100`. -/
theorem getAverageMonthlyExpenses_spec :
    (∀ s : Store,
      (storageValues s).filter (fun record => record.amount < 0) ≠ [] →
      getAverageMonthlyExpenses s =
        .ok (((((storageValues s).filter (fun record => record.amount < 0)).map
                (fun record => |record.amount|)).sum)
          / ((max 1 (monthDiffOf
                (jsMinList (((storageValues s).filter
                  (fun record => record.amount < 0)).map (fun e => e.createdAt)))
                (jsMaxList (((storageValues s).filter
                  (fun record => record.amount < 0)).map (fun e => e.createdAt)))) : ℤ) : ℚ))) ∧
    getAverageMonthlyExpenses demoExpenseStore = .ok 100 := by
  constructor
  · intro s hne
    unfold getAverageMonthlyExpenses
    rw [if_neg (fun h => hne (List.length_eq_zero.mp h))]
    rw [show (fun record : FinancialRecord => jsAbs record.amount)
        = (fun record => |record.amount|) from funext fun r => jsAbs_eq_abs r.amount]
    exact congrArg Except.ok (monthDiff_div_eq_max _ _)
  · simp only [getAverageMonthlyExpenses, demoExpenseStore, storageValues, janExpense,
      marExpense, List.map_cons, List.map_nil, List.filter_cons, List.filter_nil]
    norm_num [jsAbs, jsMinList, jsMaxList]
    rw [show monthDiffOf 1705276800000 1710028800000 = 3 from by decide]
    norm_num

/-- C1 witness: the general clause applied to the scenario store. -/
theorem getAverageMonthlyExpenses_spec_witness :
    getAverageMonthlyExpenses demoExpenseStore =
      .ok (((((storageValues demoExpenseStore).filter
              (fun record => record.amount < 0)).map (fun record => |record.amount|)).sum)
        / ((max 1 (monthDiffOf
              (jsMinList (((storageValues demoExpenseStore).filter
                (fun record => record.amount < 0)).map (fun e => e.createdAt)))
              (jsMaxList (((storageValues demoExpenseStore).filter
                (fun record => record.amount < 0)).map (fun e => e.createdAt)))) : ℤ) : ℚ)) :=
  getAverageMonthlyExpenses_spec.1 demoExpenseStore (by decide)

/-! ### C3 -/

/-- C3: `Update(i, payload)` with a valid payload (non-zero amount, non-empty
category) on a store containing a record with id `i` returns a record keeping
the stored `id` and `createdAt`, taking `amount`/`category`/`notes` from the
payload, with `updatedAt` present and (for a monotonic clock, i.e. when the
new time is at least the prior `updatedAt`-or-`createdAt`) at least the prior
stamp; the store afterwards maps `i` to exactly the returned record.  An
invalid payload yields the validation error; an unknown id the not-found
error, each leaving the store unchanged. -/
theorem updateFinancialRecord_spec (s : Store) (now : Nat) (i : String)
    (p : FinancialRecordPayload) :
    (∀ r, storageGet s i = some r → r.id = i → p.amount ≠ 0 → p.category ≠ "" →
      (r.updatedAt.getD r.createdAt) ≤ now →
      ∃ out,
        (updateFinancialRecord s now i p).1 = .ok out ∧
        out.id = r.id ∧ out.createdAt = r.createdAt ∧
        out.amount = p.amount ∧ out.category = p.category ∧ out.notes = p.notes ∧
        out.updatedAt = some now ∧ (r.updatedAt.getD r.createdAt) ≤ now ∧
        storageGet (updateFinancialRecord s now i p).2 i = some out) ∧
    ((p.amount = 0 ∨ p.category = "") →
      updateFinancialRecord s now i p = (.error "amount and category are required", s)) ∧
    (p.amount ≠ 0 → p.category ≠ "" → storageGet s i = none →
      updateFinancialRecord s now i p =
        (.error ("couldn't update a financial record with id=" ++ i ++ ". record not found"),
          s)) := by
  refine ⟨?_, ?_, ?_⟩
  · intro r hget hid hamt hcat hclk
    unfold updateFinancialRecord
    rw [if_neg (by tauto), hget]
    refine ⟨_, rfl, rfl, rfl, rfl, rfl, rfl, rfl, hclk, ?_⟩
    rw [← hid]
    exact storageGet_insert_self s r.id _
  · intro h
    unfold updateFinancialRecord
    rw [if_pos h]
  · intro hamt hcat hnone
    unfold updateFinancialRecord
    rw [if_neg (by tauto), hnone]

/-- C3 witness: updating the one-record store at id `a` with a valid payload. -/
theorem updateFinancialRecord_spec_witness :
    ∃ out,
      (updateFinancialRecord foodStore 99 "a" demoPayload).1 = .ok out ∧
      out.id = foodRecord.id ∧ out.createdAt = foodRecord.createdAt ∧
      out.amount = demoPayload.amount ∧ out.category = demoPayload.category ∧
      out.notes = demoPayload.notes ∧
      out.updatedAt = some 99 ∧ (foodRecord.updatedAt.getD foodRecord.createdAt) ≤ 99 ∧
      storageGet (updateFinancialRecord foodStore 99 "a" demoPayload).2 "a" = some out :=
  (updateFinancialRecord_spec foodStore 99 "a" demoPayload).1 foodRecord
    (by decide) (by decide) (by decide) (by decide) (by decide)

/-! ### C6 -/

/-- C6: `ByDateRange(start, end)` fails with a `ValidationError`-class message
whenever `start > end` (either the required-arguments message when `end` is
the missing value 0, or the ordering message); when both bounds are supplied
(non-zero) and `start ≤ end` it returns exactly the records with
`start ≤ createdAt ≤ end`, failing with the no-match error when none
qualifies; in particular with `start = end` it returns exactly the records
whose `createdAt` equals that instant. -/
theorem getFinancialRecordsByDateRange_spec (s : Store) (startDate endDate : Nat) :
    (startDate > endDate →
      ∃ e, getFinancialRecordsByDateRange s startDate endDate = .error e ∧
        e ∈ validationMessages) ∧
    (startDate ≠ 0 → endDate ≠ 0 → startDate ≤ endDate →
      (((storageValues s).filter
          (fun record => startDate ≤ record.createdAt ∧ record.createdAt ≤ endDate)) = [] →
        getFinancialRecordsByDateRange s startDate endDate =
          .error "No financial records found within the specified date range.") ∧
      (((storageValues s).filter
          (fun record => startDate ≤ record.createdAt ∧ record.createdAt ≤ endDate)) ≠ [] →
        getFinancialRecordsByDateRange s startDate endDate =
          .ok ((storageValues s).filter
            (fun record => startDate ≤ record.createdAt ∧ record.createdAt ≤ endDate)))) ∧
    (startDate ≠ 0 → startDate = endDate →
      ((storageValues s).filter
          (fun record => startDate ≤ record.createdAt ∧ record.createdAt ≤ endDate))
        = (storageValues s).filter (fun record => record.createdAt = startDate)) := by
  refine ⟨?_, ?_, ?_⟩
  · intro hgt
    unfold getFinancialRecordsByDateRange
    by_cases h0 : startDate = 0 ∨ endDate = 0
    · rw [if_pos h0]
      exact ⟨_, rfl, by simp [validationMessages]⟩
    · rw [if_neg h0, if_pos hgt]
      exact ⟨_, rfl, by simp [validationMessages]⟩
  · intro h1 h2 hle
    constructor
    · intro hnil
      unfold getFinancialRecordsByDateRange
      rw [if_neg (by tauto), if_neg (not_lt.mpr hle), hnil]
      rfl
    · intro hne
      unfold getFinancialRecordsByDateRange
      rw [if_neg (by tauto), if_neg (not_lt.mpr hle),
        if_neg (fun h => hne (List.length_eq_zero.mp h))]
  · intro h1 heq
    subst heq
    apply List.filter_congr
    intro r _
    simp only [decide_eq_decide]
    omega

/-- C6 witness: on the scenario store, the degenerate range picks exactly the
record created at that instant. -/
theorem getFinancialRecordsByDateRange_spec_witness :
    getFinancialRecordsByDateRange demoExpenseStore 1705276800000 1705276800000 =
      .ok ((storageValues demoExpenseStore).filter
        (fun record => 1705276800000 ≤ record.createdAt ∧ record.createdAt ≤ 1705276800000)) :=
  ((getFinancialRecordsByDateRange_spec demoExpenseStore 1705276800000 1705276800000).2.1
    (by decide) (by decide) (by decide)).2 (by decide)

/-! ### C8 -/

/-- C8: `Export(format)` fails with the validation errors when `format` is
empty or not case-insensitively `json`, fails with the no-data error when the
store is empty, and otherwise returns the JSON text of the full snapshot in
which `createdAt` (and the `updatedAt` payload when present) appears as a
quoted decimal string literal, not as a bare numeric literal. -/
theorem exportFinancialData_spec (s : Store) (format : String) :
    (format = "" → exportFinancialData s format = .error "Format is required.") ∧
    (format ≠ "" → jsToLower format ≠ "json" →
      exportFinancialData s format =
        .error "Unsupported format. Currently, only JSON export is available.") ∧
    (format ≠ "" → jsToLower format = "json" → storageValues s = [] →
      exportFinancialData s format = .error "No financial data available to export.") ∧
    (format ≠ "" → jsToLower format = "json" → storageValues s ≠ [] →
      exportFinancialData s format = .ok (renderData (storageValues s)) ∧
      ∀ r ∈ storageValues s,
        (∃ pre post, renderRecord r =
          pre ++ ",\x22createdAt\x22:" ++ jsonStr (Nat.repr r.createdAt) ++ post) ∧
        (∀ u, r.updatedAt = some u → ∃ pre post, renderRecord r =
          pre ++ ",\x22updatedAt\x22:"
            ++ ("\x7b\x22Some\x22:" ++ jsonStr (Nat.repr u) ++ "\x7d") ++ post)) := by
  refine ⟨?_, ?_, ?_, ?_⟩
  · intro h
    unfold exportFinancialData
    rw [if_pos h]
  · intro h1 h2
    unfold exportFinancialData
    rw [if_neg h1, if_pos h2]
  · intro h1 h2 h3
    unfold exportFinancialData
    rw [if_neg h1, if_neg (fun h => h h2), h3]
    rfl
  · intro h1 h2 h3
    constructor
    · unfold exportFinancialData
      rw [if_neg h1, if_neg (fun h => h h2),
        if_neg (fun h => h3 (List.length_eq_zero.mp h))]
    · intro r _
      constructor
      · refine ⟨"\x7b\x22id\x22:" ++ jsonStr r.id,
          ",\x22updatedAt\x22:" ++ renderOptNat r.updatedAt
            ++ ",\x22amount\x22:" ++ renderNum r.amount
            ++ ",\x22category\x22:" ++ jsonStr r.category
            ++ ",\x22notes\x22:" ++ renderOptStr r.notes ++ "\x7d", ?_⟩
        simp only [renderRecord, String.append_assoc]
      · intro u hu
        refine ⟨"\x7b\x22id\x22:" ++ jsonStr r.id
            ++ ",\x22createdAt\x22:" ++ jsonStr (Nat.repr r.createdAt),
          ",\x22amount\x22:" ++ renderNum r.amount
            ++ ",\x22category\x22:" ++ jsonStr r.category
            ++ ",\x22notes\x22:" ++ renderOptStr r.notes ++ "\x7d", ?_⟩
        simp only [renderRecord, hu, renderOptNat, String.append_assoc]

/-- C8 witness: exporting the one-record store with format `JSON` yields the
serialized snapshot. -/
theorem exportFinancialData_spec_witness :
    exportFinancialData foodStore "JSON" = .ok (renderData (storageValues foodStore)) :=
  ((exportFinancialData_spec foodStore "JSON").2.2.2 (by decide) (by decide) (by decide)).1

/-! ### C9 -/

theorem keyId_insert (s : Store) (k : String) (v : FinancialRecord)
    (hs : ∀ p ∈ s, p.1 = p.2.id) (hkv : k = v.id) :
    ∀ p ∈ storageInsert s k v, p.1 = p.2.id := by
  intro p hp
  unfold storageInsert at hp
  by_cases h : s.any (fun q => q.1 == k) = true
  · rw [if_pos h] at hp
    rw [List.mem_map] at hp
    obtain ⟨q, hq, rfl⟩ := hp
    by_cases hqk : (q.1 == k) = true
    · rw [if_pos hqk]
      exact hkv
    · rw [if_neg hqk]
      exact hs q hq
  · rw [if_neg h] at hp
    rw [List.mem_append] at hp
    rcases hp with hp | hp
    · exact hs p hp
    · rw [List.mem_singleton] at hp
      subst hp
      exact hkv

theorem keyId_foldl_insert (rs : List FinancialRecord) (t : Store)
    (ht : ∀ p ∈ t, p.1 = p.2.id) :
    ∀ p ∈ rs.foldl (fun acc record => storageInsert acc record.id record) t,
      p.1 = p.2.id := by
  induction rs generalizing t with
  | nil => exact ht
  | cons r rest ih =>
    intro p hp
    rw [List.foldl_cons] at hp
    exact ih (storageInsert t r.id r) (keyId_insert t r.id r ht rfl) p hp

theorem keyId_remove (s : Store) (k : String) (hs : ∀ p ∈ s, p.1 = p.2.id) :
    ∀ p ∈ storageRemove s k, p.1 = p.2.id := by
  intro p hp
  unfold storageRemove at hp
  exact hs p (List.mem_of_mem_filter hp)

/-- C9: in every store state reachable through the mutation operations, each
map entry's key equals the id of the record it holds: `Create` inserts under
the fresh record id, `Update` and `RenameCategory` re-insert under the stored
record's id, and `Delete` only removes entries. -/
theorem reachable_key_eq_id (s : Store) (h : Reachable s) :
    ∀ p ∈ s, p.1 = p.2.id := by
  induction h with
  | empty =>
    intro p hp
    cases hp
  | add s0 newId now payload _ ih =>
    unfold addFinancialRecord
    by_cases hv : payload.amount = 0 ∨ payload.category = ""
    · rw [if_pos hv]
      exact ih
    · rw [if_neg hv]
      exact keyId_insert s0 _ _ ih rfl
  | update s0 now id0 payload _ ih =>
    unfold updateFinancialRecord
    by_cases hv : payload.amount = 0 ∨ payload.category = ""
    · rw [if_pos hv]
      exact ih
    · rw [if_neg hv]
      cases hget : storageGet s0 id0 with
      | none => exact ih
      | some r => exact keyId_insert s0 r.id _ ih rfl
  | rename s0 oldC newC _ ih =>
    unfold updateExpenseCategory
    by_cases hv : oldC = "" ∨ newC = ""
    · rw [if_pos hv]
      exact ih
    · rw [if_neg hv]
      by_cases hlen :
          ((storageValues s0).filter (fun record => record.category == oldC)).length = 0
      · rw [if_pos hlen]
        exact ih
      · rw [if_neg hlen]
        exact keyId_foldl_insert _ s0 ih
  | del s0 id0 _ ih =>
    unfold deleteFinancialRecord
    by_cases hid : id0 = ""
    · rw [if_pos hid]
      exact ih
    · rw [if_neg hid]
      cases hget : storageGet s0 id0 with
      | none => exact ih
      | some r => exact keyId_remove s0 id0 ih

/-- C9 witness: the store reached by one valid create maps key `u1` to the
record whose id is `u1`. -/
theorem reachable_key_eq_id_witness :
    ("u1", reachedRecord).1 = ("u1", reachedRecord).2.id :=
  reachable_key_eq_id reachedStore (Reachable.add [] "u1" 7 demoPayload Reachable.empty)
    ("u1", reachedRecord) (by decide)

/-! ### C5 -/

theorem storageInsert_present (s : Store) (k : String) (v : FinancialRecord)
    (h : s.any (fun p => p.1 == k) = true) :
    storageInsert s k v = s.map (fun p => if p.1 == k then (k, v) else p) := by
  unfold storageInsert
  rw [if_pos h]

theorem find?_id_of_nodup (l : List FinancialRecord)
    (hnd : (l.map (fun r => r.id)).Nodup) (v : FinancialRecord) (hv : v ∈ l) :
    l.find? (fun r => r.id == v.id) = some v := by
  induction l with
  | nil => cases hv
  | cons x rest ih =>
    rw [List.map_cons, List.nodup_cons] at hnd
    rcases List.mem_cons.mp hv with heq | hv'
    · subst heq
      simp [List.find?]
    · by_cases hx : (x.id == v.id) = true
      · exfalso
        have hmem : v.id ∈ rest.map (fun r => r.id) := List.mem_map.mpr ⟨v, hv', rfl⟩
        rw [← beq_iff_eq.mp hx] at hmem
        exact hnd.1 hmem
      · simp only [List.find?, hx]
        exact ih hnd.2 hv'

theorem values_idmap_eq (s : Store) (hkey : ∀ p ∈ s, p.1 = p.2.id) :
    (storageValues s).map (fun r => r.id) = s.map Prod.fst := by
  unfold storageValues
  rw [List.map_map]
  exact List.map_congr_left (fun p hp => (hkey p hp).symm)

theorem value_unique (s : Store) (hkey : ∀ p ∈ s, p.1 = p.2.id)
    (hnd : (s.map Prod.fst).Nodup) (p : String × FinancialRecord) (hp : p ∈ s)
    (v : FinancialRecord) (hv : v ∈ storageValues s) (hid : v.id = p.1) : v = p.2 := by
  obtain ⟨q, hq, rfl⟩ := List.mem_map.mp hv
  have h1 : q.1 = p.1 := (hkey q hq).trans hid
  rw [List.inj_on_of_nodup_map hnd hq hp h1]

theorem foldl_insert_map_find (rs : List FinancialRecord) (t : Store)
    (hnd : (rs.map (fun r => r.id)).Nodup)
    (hin : ∀ r ∈ rs, t.any (fun p => p.1 == r.id) = true) :
    rs.foldl (fun acc record => storageInsert acc record.id record) t
      = t.map (fun p =>
          match rs.find? (fun r => r.id == p.1) with
          | some r => (p.1, r)
          | none => p) := by
  induction rs generalizing t with
  | nil =>
    simp [List.find?]
  | cons r rest ih =>
    rw [List.map_cons, List.nodup_cons] at hnd
    have hr : t.any (fun p => p.1 == r.id) = true := hin r (List.mem_cons_self r rest)
    rw [List.foldl_cons, storageInsert_present t r.id r hr]
    have hin' : ∀ q ∈ rest,
        (t.map (fun p => if p.1 == r.id then (r.id, r) else p)).any
          (fun p => p.1 == q.id) = true := by
      intro q hq
      obtain ⟨w, hw, hwq⟩ := List.any_eq_true.mp (hin q (List.mem_cons_of_mem r hq))
      rw [List.any_map]
      refine List.any_eq_true.mpr ⟨w, hw, ?_⟩
      show ((if (w.1 == r.id) = true then (r.id, r) else w).1 == q.id) = true
      by_cases hwr : (w.1 == r.id) = true
      · rw [if_pos hwr]
        dsimp only
        rw [← beq_iff_eq.mp hwr]
        exact hwq
      · rw [if_neg hwr]
        exact hwq
    rw [ih _ hnd.2 hin', List.map_map]
    apply List.map_congr_left
    intro p _
    simp only [Function.comp_def]
    by_cases hb : (p.1 == r.id) = true
    · have hp1 : p.1 = r.id := beq_iff_eq.mp hb
      have hnone : rest.find? (fun q => q.id == r.id) = none := by
        rw [List.find?_eq_none]
        intro x hx hbeq
        exact hnd.1 (List.mem_map.mpr ⟨x, hx, beq_iff_eq.mp hbeq⟩)
      have hsc : (r.id == p.1) = true := by
        rw [beq_iff_eq]
        exact hp1.symm
      have hhead : List.find? (fun q => q.id == p.1) (r :: rest) = some r := by
        simp only [List.find?, hsc]
      rw [if_pos hb, hhead]
      dsimp only
      rw [hnone]
      dsimp only
      rw [hp1]
    · have hsc : (r.id == p.1) = false := by
        rw [beq_eq_false_iff_ne]
        intro h
        rw [Bool.not_eq_true] at hb
        rw [beq_eq_false_iff_ne] at hb
        exact hb h.symm
      have hhead : List.find? (fun q => q.id == p.1) (r :: rest)
          = List.find? (fun q => q.id == p.1) rest := by
        simp only [List.find?, hsc]
      rw [if_neg hb, hhead]

/-- The store after a successful `updateExpenseCategory`: on a well-keyed
store every matched binding carries the renamed record and every other
binding is untouched. -/
theorem updateExpenseCategory_post (s : Store) (oldC newC : String)
    (hkey : ∀ p ∈ s, p.1 = p.2.id) (hnd : (s.map Prod.fst).Nodup)
    (h1 : ¬ (oldC = "" ∨ newC = ""))
    (hne : ((storageValues s).filter (fun record => record.category == oldC)) ≠ []) :
    (updateExpenseCategory s oldC newC).2
      = s.map (fun p =>
          if p.2.category = oldC then (p.1, renameIn newC p.2) else p) := by
  unfold updateExpenseCategory
  rw [if_neg h1, if_neg (fun h => hne (List.length_eq_zero.mp h))]
  dsimp only
  have hvnd : ((storageValues s).map (fun r => r.id)).Nodup := by
    rw [values_idmap_eq s hkey]
    exact hnd
  have hmnd : (((storageValues s).filter
      (fun record => record.category == oldC)).map (fun r => r.id)).Nodup :=
    hvnd.sublist ((List.filter_sublist _).map _)
  have hrnd : ((((storageValues s).filter (fun record => record.category == oldC)).map
      (fun record => { record with category := newC })).map (fun r => r.id)).Nodup := by
    rw [List.map_map]
    exact hmnd
  have hin : ∀ r ∈ ((storageValues s).filter
      (fun record => record.category == oldC)).map
        (fun record => { record with category := newC }),
      s.any (fun p => p.1 == r.id) = true := by
    intro r hr
    obtain ⟨m, hm, rfl⟩ := List.mem_map.mp hr
    obtain ⟨q, hq, rfl⟩ := List.mem_map.mp (List.mem_of_mem_filter hm)
    refine List.any_eq_true.mpr ⟨q, hq, ?_⟩
    show (q.1 == q.2.id) = true
    rw [beq_iff_eq]
    exact hkey q hq
  rw [foldl_insert_map_find _ s hrnd hin]
  apply List.map_congr_left
  intro p hp
  rw [List.find?_map]
  by_cases hc : p.2.category = oldC
  · have hpm : p.2 ∈ (storageValues s).filter (fun record => record.category == oldC) :=
      List.mem_filter.mpr ⟨List.mem_map.mpr ⟨p, hp, rfl⟩, by
        rw [beq_iff_eq]
        exact hc⟩
    have hkp := hkey p hp
    rw [if_pos hc, hkp]
    have hsome : ((storageValues s).filter (fun record => record.category == oldC)).find?
        ((fun r => r.id == p.2.id) ∘ (fun record => { record with category := newC }))
        = some p.2 := find?_id_of_nodup _ hmnd p.2 hpm
    rw [hsome]
    rfl
  · have hnone2 : ((storageValues s).filter (fun record => record.category == oldC)).find?
        ((fun r => r.id == p.1) ∘ (fun record => { record with category := newC }))
        = none := by
      rw [List.find?_eq_none]
      intro m hm hbeq
      have hmv : m ∈ storageValues s := List.mem_of_mem_filter hm
      have hmid : m.id = p.1 := beq_iff_eq.mp hbeq
      have hmp : m = p.2 := value_unique s hkey hnd p hp m hmv hmid
      rw [hmp] at hm
      exact hc (beq_iff_eq.mp (List.mem_filter.mp hm).2)
    rw [if_neg hc, hnone2]
    rfl

theorem rename_then_filter_empty (s : Store) (oldC newC : String) (hdiff : oldC ≠ newC) :
    ((storageValues (s.map
        (fun p => if p.2.category = oldC then (p.1, renameIn newC p.2) else p))).filter
      (fun record => record.category == oldC)) = [] := by
  rw [List.filter_eq_nil_iff]
  intro v hv
  unfold storageValues at hv
  rw [List.map_map] at hv
  obtain ⟨q, hq, rfl⟩ := List.mem_map.mp hv
  simp only [Function.comp_def]
  by_cases h : q.2.category = oldC
  · rw [if_pos h]
    intro hh
    exact hdiff (beq_iff_eq.mp hh).symm
  · rw [if_neg h]
    intro hh
    exact h (beq_iff_eq.mp hh)

/-- C5 (amended): `RenameCategory(old, new)` with non-empty arguments and at
least one matching record renames exactly the matching records (all other
fields, `updatedAt` included, and all non-matching bindings unchanged) and
returns them all with the new category; provided `new ≠ old`, a subsequent
call with `old` then fails with the not-found error.  Empty arguments give the
validation error and an unmatched `old` the not-found error.  The post-state
clause assumes the store is well-keyed (keys equal record ids — the C9
invariant — and keys are distinct, as in any genuine map state). -/
theorem updateExpenseCategory_spec_amended (s : Store) (oldC newC : String) :
    ((oldC = "" ∨ newC = "") →
      updateExpenseCategory s oldC newC =
        (.error "oldCategory and newCategory are required.", s)) ∧
    (¬ (oldC = "" ∨ newC = "") →
      ((storageValues s).filter (fun record => record.category == oldC)) = [] →
      updateExpenseCategory s oldC newC =
        (.error ("No financial records found for category: " ++ oldC ++ "."), s)) ∧
    ((∀ p ∈ s, p.1 = p.2.id) → (s.map Prod.fst).Nodup →
      ¬ (oldC = "" ∨ newC = "") →
      ((storageValues s).filter (fun record => record.category == oldC)) ≠ [] →
      (updateExpenseCategory s oldC newC).1 =
        .ok (((storageValues s).filter (fun record => record.category == oldC)).map
          (renameIn newC)) ∧
      (∀ r ∈ ((storageValues s).filter (fun record => record.category == oldC)).map
          (renameIn newC), r.category = newC) ∧
      (updateExpenseCategory s oldC newC).2
        = s.map (fun p => if p.2.category = oldC then (p.1, renameIn newC p.2) else p) ∧
      (oldC ≠ newC → ∀ c2, c2 ≠ "" →
        (updateExpenseCategory (updateExpenseCategory s oldC newC).2 oldC c2).1 =
          .error ("No financial records found for category: " ++ oldC ++ "."))) := by
  refine ⟨?_, ?_, ?_⟩
  · intro h
    unfold updateExpenseCategory
    rw [if_pos h]
  · intro h hnil
    unfold updateExpenseCategory
    rw [if_neg h, hnil]
    rfl
  · intro hkey hnd hv hne
    have hpost := updateExpenseCategory_post s oldC newC hkey hnd hv hne
    refine ⟨?_, ?_, hpost, ?_⟩
    · unfold updateExpenseCategory
      rw [if_neg hv, if_neg (fun h => hne (List.length_eq_zero.mp h))]
      rfl
    · intro r hr
      obtain ⟨m, hm, rfl⟩ := List.mem_map.mp hr
      rfl
    · intro hdiff c2 hc2
      rw [hpost]
      unfold updateExpenseCategory
      rw [if_neg (by tauto), rename_then_filter_empty s oldC newC hdiff]
      rfl

/-- C5 counterexample: renaming `food` to `food` (both arguments non-empty,
one matching record) succeeds, and — against the claim's "a subsequent
RenameCategory with old as the old category then fails with NotFound" — the
second identical call still finds the record and succeeds. -/
theorem updateExpenseCategory_selfRename_counterexample :
    (updateExpenseCategory foodStore "food" "food").1 = .ok [foodRecord] ∧
    (updateExpenseCategory
        (updateExpenseCategory foodStore "food" "food").2 "food" "food").1
      = .ok [foodRecord] :=
  ⟨rfl, rfl⟩

/-- C5 witness: renaming `food` to `groceries` on the two-record store
returns both renamed records. -/
theorem updateExpenseCategory_spec_amended_witness :
    (updateExpenseCategory foodStore2 "food" "groceries").1 =
      .ok (((storageValues foodStore2).filter
          (fun record => record.category == "food")).map (renameIn "groceries")) :=
  ((updateExpenseCategory_spec_amended foodStore2 "food" "groceries").2.2
    (by decide) (by decide) (by decide) (by decide)).1

end FinanceTracker
